import Mathlib

/-!
Shallow embedding of the cache refresh engine of `internal/cache`
(`Manager`, `refreshCacheWithRetry`, `refreshAll`, `Start`, `Stop`,
`ManualRefresh`) from the hopperbot repository.

Time is modelled in seconds as `Nat`.  A refresh operation is a function
`Nat → Bool` giving, for each 1-based call number, whether that call
returns an error (`true` = error, mirroring `err != nil`).  Durations of
the operation calls are a function `Nat → Nat`.  Context cancellation is
an optional absolute time at which `ctx.Done()` fires.
-/

namespace Hopperbot.Cache

/-- Constant `CacheTypeCustomers` from the source. -/
def CacheTypeCustomers : String := "customers"

/-- Constant `CacheTypeUsers` from the source. -/
def CacheTypeUsers : String := "users"

/-- Constant `initialBackoff = 3 * time.Second`, in seconds. -/
def initialBackoff : Nat := 3

/-- Constant `backoffMultiple = 2`. -/
def backoffMultiple : Nat := 2

/-- Constant `maxRetryWindow = 5 * time.Minute`, in seconds. -/
def maxRetryWindow : Nat := 300

/-- Error returned by `refreshCacheWithRetry`: either the wrapped operation
error after exhausting the retry window (`fmt.Errorf("cache refresh failed
after %d attempts: %w", ...)`), or the context cancellation error
(`m.ctx.Err()`). -/
inductive RefreshErr where
  | opFailed (attempts : Nat)
  | ctxCanceled
deriving DecidableEq, Repr

/-- Telemetry and log events emitted by `refreshCacheWithRetry`:
`recordSuccess` (with the successful attempt number), `recordRetry`
together with the warn log carrying the attempt number and the backoff
about to be waited, and `recordFailure` after the retry window is
exhausted. -/
inductive TelemetryEvent where
  | success (cacheType : String) (attempt : Nat)
  | retry (cacheType : String) (attempt : Nat) (backoff : Nat)
  | terminalFailure (cacheType : String) (attempt : Nat)
deriving DecidableEq, Repr

/-- Cache type carried by a telemetry event. -/
def eventCacheType : TelemetryEvent → String
  | TelemetryEvent.success ct _ => ct
  | TelemetryEvent.retry ct _ _ => ct
  | TelemetryEvent.terminalFailure ct _ => ct

/-- Outcome of one `refreshCacheWithRetry` invocation: the returned error
(`none` on success), the events emitted in order, the number of calls made
to the refresh operation, and the absolute time at which the invocation
returns. -/
structure RunResult where
  err : Option RefreshErr
  events : List TelemetryEvent
  calls : Nat
  endTime : Nat
deriving DecidableEq, Repr

/-- During a `select` racing `time.After(backoff)` (completing at absolute
time `t + backoff`, where `t` is the wait's start) against `ctx.Done()`
(firing at `cancelAt`), the cancellation branch is taken exactly when the
cancellation fires strictly before the timer. -/
def cancelledDuring (cancelAt : Option Nat) (t backoff : Nat) : Bool :=
  match cancelAt with
  | none => false
  | some c => c < t + backoff

/-- Absolute time at which `ctx.Done()` fires (`0` when it never does;
only consulted on branches where it has fired). -/
def cancelTime : Option Nat → Nat
  | none => 0
  | some c => c

/-- The loop body of `Manager.refreshCacheWithRetry`, fuel-indexed.
State: current `attempt` (1-based), the loop's `startTime`, the current
absolute time `now`, and the current `backoffDuration`.  Each iteration
calls the operation (taking `dur attempt` time), then follows the source:
return on success; return the wrapped error when
`time.Since(startTime) >= maxRetryWindow`; otherwise record a retry and
wait out the backoff, aborting with `ctx.Err()` if cancellation fires
during the wait; otherwise increment the attempt, double the backoff and
loop. -/
def refreshLoop (ct : String) (op : Nat → Bool) (dur : Nat → Nat)
    (cancelAt : Option Nat) :
    Nat → Nat → Nat → Nat → Nat → Option RunResult
  | 0, _, _, _, _ => none
  | fuel + 1, attempt, startTime, now, backoff =>
    if op attempt = false then
      some ⟨none, [TelemetryEvent.success ct attempt], attempt,
        now + dur attempt⟩
    else if maxRetryWindow ≤ (now + dur attempt) - startTime then
      some ⟨some (RefreshErr.opFailed attempt),
        [TelemetryEvent.terminalFailure ct attempt], attempt,
        now + dur attempt⟩
    else if cancelledDuring cancelAt (now + dur attempt) backoff = true then
      some ⟨some RefreshErr.ctxCanceled,
        [TelemetryEvent.retry ct attempt backoff], attempt,
        max (now + dur attempt) (cancelTime cancelAt)⟩
    else
      match refreshLoop ct op dur cancelAt fuel (attempt + 1) startTime
          ((now + dur attempt) + backoff) (backoff * backoffMultiple) with
      | none => none
      | some r => some ⟨r.err, TelemetryEvent.retry ct attempt backoff :: r.events,
          r.calls, r.endTime⟩

/-- Fuel sufficient for any `refreshLoop` run started with
`now = startTime`: the window check fires after at most
`maxRetryWindow / initialBackoff` iterations. -/
def defaultFuel : Nat := 101

/-- `Manager.refreshCacheWithRetry`: initialises `startTime := time.Now()`,
`attempt := 1`, `backoffDuration := initialBackoff` and runs the loop. -/
def refreshCacheWithRetry (ct : String) (op : Nat → Bool) (dur : Nat → Nat)
    (cancelAt : Option Nat) (fuel startTime : Nat) : Option RunResult :=
  refreshLoop ct op dur cancelAt fuel 1 startTime startTime initialBackoff

/-- Observable outcome of `Manager.refreshAll`: the concatenated telemetry
events of the two sequential `refreshCacheWithRetry` calls (customers
first, then users) and the number of calls made to each refresh operation.
`refreshAll` itself returns nothing to its caller in the source — both
sub-errors are only logged — so the result type has no error component. -/
structure CycleResult where
  events : List TelemetryEvent
  customersCalls : Nat
  usersCalls : Nat
deriving DecidableEq, Repr

/-- `Manager.refreshAll`: runs `refreshCacheWithRetry` for the customers
cache with `m.refresher.InitializeCustomers`, then (regardless of the
first outcome) for the users cache with `m.refresher.InitializeUsers`;
errors from either are logged, not returned. -/
def refreshAllRun (opC opU : Nat → Bool) (durC durU : Nat → Nat)
    (cancelAt : Option Nat) (fuel : Nat) : Option CycleResult :=
  match refreshCacheWithRetry CacheTypeCustomers opC durC cancelAt fuel 0 with
  | none => none
  | some r1 =>
    match refreshCacheWithRetry CacheTypeUsers opU durU cancelAt fuel
        r1.endTime with
    | none => none
    | some r2 => some ⟨r1.events ++ r2.events, r1.calls, r2.calls⟩

/-- Backoff values produced by the source's update
`backoffDuration *= backoffMultiple` starting from `initialBackoff`:
`backoffSeq n` is the delay waited after the `(n+1)`-st failed attempt. -/
def backoffSeq : Nat → Nat
  | 0 => initialBackoff
  | n + 1 => backoffSeq n * backoffMultiple

/-- Backoff delays carried by the retry events of a run, in order. -/
def retryBackoffs (evs : List TelemetryEvent) : List Nat :=
  evs.filterMap fun e =>
    match e with
    | TelemetryEvent.retry _ _ b => some b
    | _ => none

/-- Reference run for the backoff-schedule claims: a refresh operation that
fails on every call, with instantaneous calls and no cancellation. -/
def alwaysFailRun : Option RunResult :=
  refreshCacheWithRetry CacheTypeCustomers (fun _ => true) (fun _ => 0)
    none defaultFuel 0

/-!
Interleaving model of the `Manager`'s goroutine structure, for the
lifecycle and concurrency claims.  A refresh cycle (`refreshAll`) is
represented by the sequence of its interactions with the refresh
operations: each operation call is a `beginCall` step (the invocation,
which is what the call log records) followed by an `endCall` step (the
call returning), so a call is "in flight" between the two.  The action
sequence of a cycle is derived from the pure model above.  System state
mirrors the `Manager` fields relevant to scheduling: the context-cancelled
flag, the `sync.WaitGroup` counter, the `Start` goroutine (which waits in
its `select` and runs `refreshAll` inline on a tick), and the goroutines
spawned by `ManualRefresh` — which the source does not register with the
wait group. -/

/-- One scheduling-visible action of a refresh cycle. -/
inductive Action where
  | beginCall (cacheType : String) (attempt : Nat)
  | endCall (cacheType : String) (attempt : Nat)
deriving DecidableEq, Repr

/-- The begin/end action pairs for `calls` sequential invocations of one
refresh operation, attempts numbered from 1. -/
def callActions (ct : String) (calls : Nat) : List Action :=
  (List.range calls).flatMap fun i =>
    [Action.beginCall ct (i + 1), Action.endCall ct (i + 1)]

/-- The action sequence of one `refreshAll` cycle whose operations both
succeed on their first call, derived from the pure cycle model. -/
def succeedActions : List Action :=
  match refreshAllRun (fun _ => false) (fun _ => false) (fun _ => 0)
      (fun _ => 0) none defaultFuel with
  | some r => callActions CacheTypeCustomers r.customersCalls
      ++ callActions CacheTypeUsers r.usersCalls
  | none => []

/-- Phase of the goroutine launched by `Manager.Start`: blocked in its
`select` on the ticker and `ctx.Done()`, or executing `refreshAll` inline
with the listed actions remaining. -/
inductive TickerPhase where
  | selectWait
  | running (rest : List Action)
deriving DecidableEq, Repr

/-- Scheduling-relevant state of a `Manager`: the cancellation flag of
`m.ctx`, the `m.wg` counter, the `Start` goroutine (if launched), the
goroutines spawned by `ManualRefresh` (each with its remaining actions;
not tracked by `m.wg` in the source), and the chronological log of refresh
operation invocations as `(cacheType, attempt)` pairs. -/
structure SysState where
  ctxCancelled : Bool
  wgCount : Nat
  ticker : Option TickerPhase
  manualThreads : List (List Action)
  callLog : List (String × Nat)
deriving DecidableEq, Repr

/-- State produced by `NewManager`: live context, zero wait-group counter,
no goroutines, no calls made. -/
def newManager : SysState := ⟨false, 0, none, [], []⟩

/-- Atomic transitions of the system.  `start`, `cancel` and
`manualRefresh` are caller-invoked; `tickFire`, `ctxExit`, `tickerStep`
and `manualStep` are scheduler choices for the background goroutines. -/
inductive Label where
  | start
  | cancel
  | manualRefresh
  | tickFire
  | ctxExit
  | tickerStep
  | manualStep (i : Nat)
deriving DecidableEq, Repr

/-- Effect of one cycle action on the invocation log: an operation call is
logged when it begins. -/
def doAction (log : List (String × Nat)) : Action → List (String × Nat)
  | Action.beginCall ct a => log ++ [(ct, a)]
  | Action.endCall _ _ => log

/-- One step of the interleaving semantics, `none` when the label is not
enabled.  `start` does `wg.Add(1)` and launches the ticker goroutine;
`cancel` is `m.cancel()` inside `Stop` (idempotent); `manualRefresh` is
`Manager.ManualRefresh`: if the context is done it only logs and returns,
otherwise it spawns a `refreshAll` goroutine without touching the wait
group; `tickFire` is the ticker case of the goroutine's `select`;
`ctxExit` is its `ctx.Done()` case, running `defer wg.Done()` and exiting;
`tickerStep` and `manualStep i` advance the respective `refreshAll`
execution by one action. -/
def step (cycle : List Action) (s : SysState) : Label → Option SysState
  | Label.start =>
    match s.ticker with
    | some _ => none
    | none => some { s with wgCount := s.wgCount + 1
                            ticker := some TickerPhase.selectWait }
  | Label.cancel => some { s with ctxCancelled := true }
  | Label.manualRefresh =>
    if s.ctxCancelled then some s
    else some { s with manualThreads := s.manualThreads ++ [cycle] }
  | Label.tickFire =>
    match s.ticker with
    | some TickerPhase.selectWait =>
      some { s with ticker := some (TickerPhase.running cycle) }
    | _ => none
  | Label.ctxExit =>
    match s.ticker with
    | some TickerPhase.selectWait =>
      if s.ctxCancelled then
        some { s with ticker := none, wgCount := s.wgCount - 1 }
      else none
    | _ => none
  | Label.tickerStep =>
    match s.ticker with
    | some (TickerPhase.running []) =>
      some { s with ticker := some TickerPhase.selectWait }
    | some (TickerPhase.running (a :: rest)) =>
      some { s with ticker := some (TickerPhase.running rest)
                    callLog := doAction s.callLog a }
    | _ => none
  | Label.manualStep i =>
    match s.manualThreads.get? i with
    | some [] => some { s with manualThreads := s.manualThreads.eraseIdx i }
    | some (a :: rest) =>
      some { s with manualThreads := s.manualThreads.set i rest
                    callLog := doAction s.callLog a }
    | none => none

/-- Run a list of labels from a state, failing if any label is not
enabled. -/
def runLabels (cycle : List Action) : SysState → List Label → Option SysState
  | s, [] => some s
  | s, l :: ls =>
    match step cycle s l with
    | some s' => runLabels cycle s' ls
    | none => none

/-- `Stop` returns once `m.wg.Wait()` unblocks, i.e. once the wait-group
counter is zero (`cancel` having been issued first). -/
def stopWaitDone (s : SysState) : Bool := s.wgCount == 0

/-- A refresh-cycle execution has an attempt for `ct` in flight when its
next pending action is the `endCall` of a `ct` invocation. -/
def threadInFlight (ct : String) : List Action → Bool
  | Action.endCall ct' _ :: _ => ct' == ct
  | _ => false

/-- Number of refresh attempts for `ct` in flight engine-wide: over all
`ManualRefresh` goroutines plus the ticker goroutine's inline cycle. -/
def inFlightCount (s : SysState) (ct : String) : Nat :=
  s.manualThreads.countP (threadInFlight ct)
    + match s.ticker with
      | some (TickerPhase.running rest) =>
        if threadInFlight ct rest then 1 else 0
      | _ => 0

/-- Number of refresh-cycle executions currently active engine-wide. -/
def activeThreads (s : SysState) : Nat :=
  s.manualThreads.length
    + match s.ticker with
      | some (TickerPhase.running _) => 1
      | _ => 0

/-- Fuel sufficiency: since every backoff wait lasts at least
`initialBackoff`, the elapsed-window check fires before the fuel runs out
whenever `maxRetryWindow ≤ (now - startTime) + initialBackoff * f`. -/
theorem refreshLoop_isSome (ct : String) (op : Nat → Bool) (dur : Nat → Nat)
    (cancelAt : Option Nat) :
    ∀ (f attempt startTime now backoff : Nat),
      initialBackoff ≤ backoff → startTime ≤ now →
      maxRetryWindow ≤ (now - startTime) + initialBackoff * f →
      (refreshLoop ct op dur cancelAt (f + 1) attempt startTime now
        backoff).isSome = true := by
  intro f
  induction f with
  | zero =>
    intro attempt startTime now backoff hb hst hw
    rw [refreshLoop]
    split
    · rfl
    split
    · rfl
    · rename_i hfail hwin
      exfalso
      apply hwin
      have e1 : maxRetryWindow = 300 := rfl
      have e2 : initialBackoff = 3 := rfl
      rw [e1] at hw ⊢
      rw [e2] at hw
      omega
  | succ k ih =>
    intro attempt startTime now backoff hb hst hw
    rw [refreshLoop]
    split
    · rfl
    split
    · rfl
    split
    · rfl
    · rename_i hfail hwin hcancel
      have e1 : maxRetryWindow = 300 := rfl
      have e2 : initialBackoff = 3 := rfl
      have e3 : backoffMultiple = 2 := rfl
      have hb' : (3 : Nat) ≤ backoff := by rw [e2] at hb; exact hb
      have h1 : initialBackoff ≤ backoff * backoffMultiple := by
        rw [e2, e3]; omega
      have h2 : startTime ≤ (now + dur attempt) + backoff := by omega
      have h3 : maxRetryWindow ≤
          (((now + dur attempt) + backoff) - startTime)
            + initialBackoff * k := by
        rw [e1, e2] at hw ⊢
        omega
      have hrec := ih (attempt + 1) startTime ((now + dur attempt) + backoff)
        (backoff * backoffMultiple) h1 h2 h3
      obtain ⟨r, hr⟩ := Option.isSome_iff_exists.mp hrec
      rw [hr]
      rfl

/-- When the operation fails on every call and the context is never
cancelled, the retry loop returns the wrapped operation error and records
a terminal-failure event for its final attempt. -/
theorem refreshLoop_alwaysFail (ct : String) (op : Nat → Bool)
    (dur : Nat → Nat) (hop : ∀ n, op n = true) :
    ∀ (fuel attempt startTime now backoff : Nat) (r : RunResult),
      refreshLoop ct op dur none fuel attempt startTime now backoff
        = some r →
      r.err = some (RefreshErr.opFailed r.calls)
      ∧ TelemetryEvent.terminalFailure ct r.calls ∈ r.events := by
  intro fuel
  induction fuel with
  | zero =>
    intro attempt startTime now backoff r h
    simp [refreshLoop] at h
  | succ k ih =>
    intro attempt startTime now backoff r h
    rw [refreshLoop] at h
    rw [hop attempt] at h
    simp only [Bool.true_eq_false, if_false] at h
    have hcf : cancelledDuring none (now + dur attempt) backoff = false := rfl
    rw [hcf] at h
    simp only [Bool.false_eq_true, if_false] at h
    split at h
    · rename_i hwin
      cases h
      exact ⟨rfl, List.mem_singleton.mpr rfl⟩
    · rename_i hwin
      split at h
      · cases h
      · rename_i r' hr'
        cases h
        obtain ⟨h1, h2⟩ := ih (attempt + 1) startTime
          ((now + dur attempt) + backoff) (backoff * backoffMultiple) r' hr'
        exact ⟨h1, List.mem_cons_of_mem _ h2⟩

/-- When the operation succeeds on its first call, the retry loop returns
success immediately with a single success event for attempt 1. -/
theorem refreshCacheWithRetry_firstSuccess (ct : String) (op : Nat → Bool)
    (dur : Nat → Nat) (cancelAt : Option Nat) (fuel startTime : Nat)
    (h1 : op 1 = false) :
    refreshCacheWithRetry ct op dur cancelAt (fuel + 1) startTime
      = some ⟨none, [TelemetryEvent.success ct 1], 1,
          startTime + dur 1⟩ := by
  rw [refreshCacheWithRetry, refreshLoop, h1]
  simp

/-- Every telemetry event emitted by a retry-loop run carries the cache
type the loop was invoked with. -/
theorem refreshLoop_events_ct (ct : String) (op : Nat → Bool)
    (dur : Nat → Nat) (cancelAt : Option Nat) :
    ∀ (fuel attempt startTime now backoff : Nat) (r : RunResult),
      refreshLoop ct op dur cancelAt fuel attempt startTime now backoff
        = some r →
      ∀ e ∈ r.events, eventCacheType e = ct := by
  intro fuel
  induction fuel with
  | zero =>
    intro attempt startTime now backoff r h
    simp [refreshLoop] at h
  | succ k ih =>
    intro attempt startTime now backoff r h
    rw [refreshLoop] at h
    split at h
    · cases h
      intro e he
      rw [List.mem_singleton.mp he]
      rfl
    split at h
    · cases h
      intro e he
      rw [List.mem_singleton.mp he]
      rfl
    split at h
    · cases h
      intro e he
      rw [List.mem_singleton.mp he]
      rfl
    · split at h
      · cases h
      · rename_i r' hr'
        cases h
        intro e he
        rcases List.mem_cons.mp he with he1 | he2
        · rw [he1]; rfl
        · exact ih (attempt + 1) startTime ((now + dur attempt) + backoff)
            (backoff * backoffMultiple) r' hr' e he2

/-- C1: the delays actually waited by the retry loop when every attempt
fails are exactly `[3, 6, 12, 24, 48, 96, 192]` (the delays separating
attempts 1..7 from their successors), and in general the backoff value
before the `(n+1)`-st doubling is `initialBackoff * backoffMultiple ^ n`,
i.e. delay(n) = initialDelay × multiplier^(n−1) for 1-based attempts. -/
theorem C1_backoff_schedule :
    (alwaysFailRun.map fun r => retryBackoffs r.events)
      = some [3, 6, 12, 24, 48, 96, 192]
    ∧ ∀ n, backoffSeq n = initialBackoff * backoffMultiple ^ n := by
  constructor
  · decide
  · intro n
    induction n with
    | zero => simp [backoffSeq]
    | succ k ih => rw [backoffSeq, ih, pow_succ, Nat.mul_assoc]

/-- C2 fails as stated: with the reference constants and an operation that
fails on every (instantaneous) call, the retry loop issues an 8th attempt.
The elapsed-window check runs after a failed call, and before attempt 8
only 189 of the 300 time-units have elapsed; after the 7th failure the
loop therefore waits 192 more units and calls the operation an 8th time,
so the call count is 8, not at most 7. -/
theorem C2_counterexample :
    alwaysFailRun.map RunResult.calls = some 8
    ∧ ¬ alwaysFailRun.map RunResult.calls = some 7 := by
  decide

/-- C2 amended: the retry loop with the reference constants and an
always-failing instantaneous operation makes exactly 8 attempts — after
the 7th failure only 189 time-units have elapsed, so a 7th retry event
with delay 192 is recorded and an 8th attempt is issued at elapsed time
381; that attempt's failure trips the 300-unit ceiling, a terminal-failure
event is recorded, the wrapped operation error is returned, and no 9th
attempt occurs. -/
theorem C2_amended_eight_attempts :
    alwaysFailRun = some ⟨some (RefreshErr.opFailed 8),
      [TelemetryEvent.retry CacheTypeCustomers 1 3,
       TelemetryEvent.retry CacheTypeCustomers 2 6,
       TelemetryEvent.retry CacheTypeCustomers 3 12,
       TelemetryEvent.retry CacheTypeCustomers 4 24,
       TelemetryEvent.retry CacheTypeCustomers 5 48,
       TelemetryEvent.retry CacheTypeCustomers 6 96,
       TelemetryEvent.retry CacheTypeCustomers 7 192,
       TelemetryEvent.terminalFailure CacheTypeCustomers 8], 8, 381⟩ := by
  decide

/-- C6: for every pair of refresh operations where the customers refresh
fails on every call and the users refresh succeeds when called, one
`refreshAll` cycle still invokes the users refresh (exactly once,
recording a success event for it), records a terminal-failure event for
customers, and — as `refreshAll`'s result type shows — propagates no error
to its caller. -/
theorem C6_failure_isolation (opC opU : Nat → Bool) (durC durU : Nat → Nat)
    (hC : ∀ n, opC n = true) (hU : opU 1 = false) :
    ∃ evs a,
      refreshAllRun opC opU durC durU none defaultFuel = some ⟨evs, a, 1⟩
      ∧ TelemetryEvent.terminalFailure CacheTypeCustomers a ∈ evs
      ∧ TelemetryEvent.success CacheTypeUsers 1 ∈ evs := by
  have hs1 : (refreshCacheWithRetry CacheTypeCustomers opC durC none
      defaultFuel 0).isSome = true :=
    refreshLoop_isSome CacheTypeCustomers opC durC none 100 1 0 0
      initialBackoff (le_refl _) (le_refl _) (by decide)
  obtain ⟨r1, hr1⟩ := Option.isSome_iff_exists.mp hs1
  have hterm := refreshLoop_alwaysFail CacheTypeCustomers opC durC hC
    defaultFuel 1 0 0 initialBackoff r1 hr1
  have hr2 : refreshCacheWithRetry CacheTypeUsers opU durU none defaultFuel
      r1.endTime = some ⟨none, [TelemetryEvent.success CacheTypeUsers 1], 1,
        r1.endTime + durU 1⟩ :=
    refreshCacheWithRetry_firstSuccess CacheTypeUsers opU durU none 100
      r1.endTime hU
  refine ⟨r1.events ++ [TelemetryEvent.success CacheTypeUsers 1], r1.calls,
    ?_, ?_, ?_⟩
  · unfold refreshAllRun
    rw [hr1]
    dsimp only
    rw [hr2]
  · exact List.mem_append_left _ hterm.2
  · exact List.mem_append_right _ (List.mem_singleton.mpr rfl)

/-- Witness for C6 at concrete inputs: an always-failing customers
operation and an always-succeeding users operation, both instantaneous. -/
theorem C6_witness :
    ∃ evs a,
      refreshAllRun (fun _ => true) (fun _ => false) (fun _ => 0)
        (fun _ => 0) none defaultFuel = some ⟨evs, a, 1⟩
      ∧ TelemetryEvent.terminalFailure CacheTypeCustomers a ∈ evs
      ∧ TelemetryEvent.success CacheTypeUsers 1 ∈ evs :=
  C6_failure_isolation (fun _ => true) (fun _ => false) (fun _ => 0)
    (fun _ => 0) (fun _ => rfl) rfl

/-- C7: if the operation call at some attempt fails, the retry window is
not yet exhausted, and the cancellation signal fires before the backoff
wait for that attempt completes, the retry loop returns at once with the
context-cancellation error: the operation is not called again (the call
count stays at the current attempt), only the already-recorded retry event
is emitted, and the returned error is distinct from the wrapped operation
error. -/
theorem C7_cancel_during_backoff (ct : String) (op : Nat → Bool)
    (dur : Nat → Nat) (c fuel attempt startTime now backoff : Nat)
    (hfail : op attempt = true)
    (hwin : ¬ maxRetryWindow ≤ (now + dur attempt) - startTime)
    (hcancel : c < (now + dur attempt) + backoff) :
    refreshLoop ct op dur (some c) (fuel + 1) attempt startTime now backoff
      = some ⟨some RefreshErr.ctxCanceled,
          [TelemetryEvent.retry ct attempt backoff], attempt,
          max (now + dur attempt) c⟩
    ∧ some RefreshErr.ctxCanceled ≠ some (RefreshErr.opFailed attempt) := by
  constructor
  · rw [refreshLoop, hfail]
    simp only [Bool.true_eq_false, if_false, if_neg hwin]
    have hc : cancelledDuring (some c) (now + dur attempt) backoff = true := by
      simp [cancelledDuring, hcancel]
    rw [hc]
    simp [cancelTime]
  · intro h
    cases Option.some.inj h

/-- Witness for C7: an always-failing instantaneous operation, first
attempt, cancellation at absolute time 1 (inside the first 3-unit wait). -/
theorem C7_witness :
    refreshLoop "customers" (fun _ => true) (fun _ => 0) (some 1) 5 1 0 0 3
      = some ⟨some RefreshErr.ctxCanceled,
          [TelemetryEvent.retry "customers" 1 3], 1, max (0 + 0) 1⟩
    ∧ some RefreshErr.ctxCanceled ≠ some (RefreshErr.opFailed 1) :=
  C7_cancel_during_backoff "customers" (fun _ => true) (fun _ => 0) 1 4 1 0
    0 3 rfl (by decide) (by decide)

/-- C9: every `refreshAll` cycle consists of the customers retry loop run
to completion followed by the users retry loop: the emitted event
sequence splits as the customers-run events followed by the users-run
events, so every customers event (and hence every customers invocation)
precedes every users event. -/
theorem C9_sequential_order (opC opU : Nat → Bool) (durC durU : Nat → Nat) :
    ∃ r1 r2 : RunResult,
      refreshAllRun opC opU durC durU none defaultFuel
        = some ⟨r1.events ++ r2.events, r1.calls, r2.calls⟩
      ∧ (∀ e ∈ r1.events, eventCacheType e = CacheTypeCustomers)
      ∧ (∀ e ∈ r2.events, eventCacheType e = CacheTypeUsers) := by
  have hs1 : (refreshCacheWithRetry CacheTypeCustomers opC durC none
      defaultFuel 0).isSome = true :=
    refreshLoop_isSome CacheTypeCustomers opC durC none 100 1 0 0
      initialBackoff (le_refl _) (le_refl _) (by decide)
  obtain ⟨r1, hr1⟩ := Option.isSome_iff_exists.mp hs1
  have hs2 : (refreshCacheWithRetry CacheTypeUsers opU durU none
      defaultFuel r1.endTime).isSome = true :=
    refreshLoop_isSome CacheTypeUsers opU durU none 100 1 r1.endTime
      r1.endTime initialBackoff (le_refl _) (le_refl _)
      (by rw [Nat.sub_self]; decide)
  obtain ⟨r2, hr2⟩ := Option.isSome_iff_exists.mp hs2
  refine ⟨r1, r2, ?_, ?_, ?_⟩
  · unfold refreshAllRun
    rw [hr1]
    dsimp only
    rw [hr2]
  · exact refreshLoop_events_ct CacheTypeCustomers opC durC none
      defaultFuel 1 0 0 initialBackoff r1 hr1
  · exact refreshLoop_events_ct CacheTypeUsers opU durU none
      defaultFuel 1 r1.endTime r1.endTime initialBackoff r2 hr2

/-- C3 fails as stated: calling `ManualRefresh` on a freshly constructed,
never-started manager does invoke both refresh operations.  The guard in
`ManualRefresh` only checks `ctx.Done()`, which has not fired on a
never-started manager, so a `refreshAll` goroutine is spawned; running it
to completion logs one `InitializeCustomers` call and one
`InitializeUsers` call — not the empty call log the claim requires (this
is also what the source's `TestManualRefresh` asserts). -/
theorem C3_counterexample :
    (runLabels succeedActions newManager
        [Label.manualRefresh, Label.manualStep 0, Label.manualStep 0,
         Label.manualStep 0, Label.manualStep 0]).map SysState.callLog
      = some [(CacheTypeCustomers, 1), (CacheTypeUsers, 1)]
    ∧ ¬ (runLabels succeedActions newManager
        [Label.manualRefresh, Label.manualStep 0, Label.manualStep 0,
         Label.manualStep 0, Label.manualStep 0]).map SysState.callLog
      = some [] := by
  decide

/-- C3 amended: `ManualRefresh` always returns immediately (the trigger
step is enabled and non-blocking in every state); on a freshly
constructed, never-started manager it spawns a refresh cycle that invokes
each refresh operation exactly once; only after the manager has been
stopped (context cancelled) is it a no-op that spawns nothing and invokes
nothing. -/
theorem C3_amended_spawns_cycle :
    (∀ (cycle : List Action) (s : SysState),
      (step cycle s Label.manualRefresh).isSome = true)
    ∧ (runLabels succeedActions newManager
        [Label.manualRefresh, Label.manualStep 0, Label.manualStep 0,
         Label.manualStep 0, Label.manualStep 0]).map SysState.callLog
      = some [(CacheTypeCustomers, 1), (CacheTypeUsers, 1)]
    ∧ runLabels succeedActions newManager
        [Label.cancel, Label.manualRefresh]
      = some ⟨true, 0, none, [], []⟩ := by
  refine ⟨?_, by decide, by decide⟩
  intro cycle s
  cases hc : s.ctxCancelled <;> simp [step, hc]

/-- C4: the code contradicts `Stop`'s documented guarantee.  After
`Start(); ManualRefresh(); Stop()`, the `Stop` call returns — the context
is cancelled and the wait-group counter is back to zero once the ticker
goroutine exits — while the goroutine spawned by `ManualRefresh` (never
registered with the wait group) has not run at all; scheduling it next
makes it invoke `InitializeCustomers` after `Stop` has returned. -/
theorem C4_stop_leaks_manual_refresh :
    runLabels succeedActions newManager
        [Label.start, Label.manualRefresh, Label.cancel, Label.ctxExit]
      = some ⟨true, 0, none, [succeedActions], []⟩
    ∧ stopWaitDone ⟨true, 0, none, [succeedActions], []⟩ = true
    ∧ (runLabels succeedActions ⟨true, 0, none, [succeedActions], []⟩
        [Label.manualStep 0]).map SysState.callLog
      = some [(CacheTypeCustomers, 1)] := by
  decide

/-- C5 fails as stated: after `Start`, a tick and a concurrent
`ManualRefresh`, one scheduling of each cycle reaches a state in which
both the ticker goroutine's cycle and the manual goroutine's cycle have a
customers refresh attempt in flight at the same instant — two in flight
engine-wide for one directory kind, not at most one. -/
theorem C5_counterexample :
    runLabels succeedActions newManager
        [Label.start, Label.tickFire, Label.manualRefresh, Label.tickerStep,
         Label.manualStep 0]
      = some ⟨false, 1,
          some (TickerPhase.running
            [Action.endCall CacheTypeCustomers 1,
             Action.beginCall CacheTypeUsers 1,
             Action.endCall CacheTypeUsers 1]),
          [[Action.endCall CacheTypeCustomers 1,
            Action.beginCall CacheTypeUsers 1,
            Action.endCall CacheTypeUsers 1]],
          [(CacheTypeCustomers, 1), (CacheTypeCustomers, 1)]⟩
    ∧ ¬ inFlightCount
        ⟨false, 1,
          some (TickerPhase.running
            [Action.endCall CacheTypeCustomers 1,
             Action.beginCall CacheTypeUsers 1,
             Action.endCall CacheTypeUsers 1]),
          [[Action.endCall CacheTypeCustomers 1,
            Action.beginCall CacheTypeUsers 1,
            Action.endCall CacheTypeUsers 1]],
          [(CacheTypeCustomers, 1), (CacheTypeCustomers, 1)]⟩
        CacheTypeCustomers ≤ 1 := by
  decide

/-- C5 amended: within any single refresh cycle at most one attempt is in
flight at a time (a cycle's actions are strictly sequential), so the
engine-wide number of in-flight attempts for a directory kind is bounded
by the number of concurrently active refresh cycles — but concurrent
cycles (on-demand triggers racing the recurring tick or each other) may
each have an attempt for the same directory in flight simultaneously. -/
theorem C5_amended_inflight_bound (s : SysState) (ct : String) :
    inFlightCount s ct ≤ activeThreads s := by
  unfold inFlightCount activeThreads
  have h := List.countP_le_length (p := threadInFlight ct)
    (l := s.manualThreads)
  cases hti : s.ticker with
  | none => simpa using h
  | some ph =>
    cases ph with
    | selectWait => simpa using h
    | running rest =>
      by_cases hf : threadInFlight ct rest = true
      · simp only [hf, if_true]
        omega
      · simp [hf]
        omega

/-- C10: `Stop` on a freshly constructed, never-started manager returns
immediately: the wait-group counter is zero at construction, cancelling
the context is always enabled, and `wg.Wait()` unblocks with no
background step required. -/
theorem C10_stop_without_start :
    stopWaitDone newManager = true
    ∧ step succeedActions newManager Label.cancel
      = some ⟨true, 0, none, [], []⟩
    ∧ stopWaitDone ⟨true, 0, none, [], []⟩ = true := by
  decide

/-- C8: on a started manager, the first `Stop` (cancel, then the ticker
goroutine observes cancellation and exits, dropping the wait-group counter
to zero) returns; calling `Stop` again is a safe no-op — `cancel` on the
already-cancelled context leaves the state unchanged and `wg.Wait()`
unblocks immediately since the counter is already zero. -/
theorem C8_idempotent_stop :
    runLabels succeedActions newManager
        [Label.start, Label.cancel, Label.ctxExit]
      = some ⟨true, 0, none, [], []⟩
    ∧ stopWaitDone ⟨true, 0, none, [], []⟩ = true
    ∧ step succeedActions ⟨true, 0, none, [], []⟩ Label.cancel
      = some ⟨true, 0, none, [], []⟩ := by
  decide

end Hopperbot.Cache
